import Mathlib

/-!
Verification of the Medical-Chat-Bot repository (Flask RAG chatbot).

Python strings are modelled as `List Char` (`Str`).  Pure string helpers
(`lower`, substring containment, `strip`, the regex substitutions of
`preprocess_medical_text`) are translated character by character from the
`re` patterns in the source; fallible external services (the sentence
embedder, the Groq completion client, FAISS file reads) are modelled as
`Except`-valued parameters, and the module-level mutable globals of
`vector_database.py` as an explicit state record `VDB` threaded through the
operations.  Floating-point similarity scores are modelled as rationals
(`ℚ`), which is faithful to every comparison the code performs.
-/

namespace MedBot

/-- Python strings, modelled as lists of characters. -/
abbrev Str := List Char

/-- Coerce a Lean string literal to the model type. -/
def str (s : String) : Str := s.data

/-- ASCII lower-casing of one character, as `str.lower` acts on the ASCII
inputs relevant here. -/
def lowerChar (c : Char) : Char :=
  if 'A' ≤ c ∧ c ≤ 'Z' then Char.ofNat (c.toNat + 32) else c

/-- `s.lower()` on ASCII text. -/
def lowerStr (s : Str) : Str := s.map lowerChar

/-- Does `hay` begin with `needle`?  (Helper for substring scanning.) -/
def leads : Str → Str → Bool
  | [], _ => true
  | _ :: _, [] => false
  | a :: as, b :: bs => a = b && leads as bs

/-- Python `needle in hay`: substring containment. -/
def isSubstr (needle : Str) : Str → Bool
  | [] => needle.isEmpty
  | c :: t => leads needle (c :: t) || isSubstr needle t

/-- The `medical_indicators` keyword list of `validate_medical_query`
(`retrieval_qa.py`), in source order. -/
def medical_indicators : List Str :=
  [str "symptom", str "disease", str "condition", str "treatment",
   str "medicine", str "medication", str "diagnosis", str "doctor",
   str "hospital", str "pain", str "fever", str "infection",
   str "medical", str "health", str "illness", str "therapy",
   str "surgery", str "procedure", str "blood", str "heart",
   str "lung", str "brain", str "liver", str "kidney", str "cancer",
   str "diabetes", str "hypertension", str "pneumonia", str "what is",
   str "how to treat", str "causes of", str "prevention", str "cure",
   str "relief"]

/-- `validate_medical_query` (`retrieval_qa.py`): the query is in-domain
iff its lower-casing contains some indicator as a substring. -/
def validate_medical_query (q : Str) : Bool :=
  medical_indicators.any (fun ind => isSubstr ind (lowerStr q))

/-- The apostrophe character, U+0027. -/
def apos : Char := Char.ofNat 39

/-- The out-of-domain example query from the spec scenario. -/
def weatherQuery : Str := str "What" ++ [apos] ++ str "s the weather today?"

/-- Python `\s` on the ASCII range: the whitespace characters recognised by
`str.strip`, `str.split` and the `re` patterns in the source. -/
def isSpaceChar (c : Char) : Bool :=
  c = ' ' || c = '\t' || c = '\n' || c = '\x0d' || c = '\x0b' || c = '\x0c'

/-- `s.strip()`: drop leading and trailing whitespace. -/
def stripStr (s : Str) : Str :=
  ((s.dropWhile isSpaceChar).reverse.dropWhile isSpaceChar).reverse

/-- Word counting as `len(s.split())`: the number of maximal runs of
non-whitespace characters.  `prevSpace` records whether the previous
character was whitespace (true at the start). -/
def wordCountAux (prevSpace : Bool) : Str → Nat
  | [] => 0
  | c :: t =>
    (if prevSpace ∧ ¬ isSpaceChar c then 1 else 0) + wordCountAux (isSpaceChar c) t

/-- `len(s.split())` for a Python string `s`. -/
def wordCount (s : Str) : Nat := wordCountAux true s

/-- The `medical_keywords` list of `detect_medical_terms`
(`pdf_processor.py`), in source order. -/
def medical_keywords : List Str :=
  [str "symptom", str "disease", str "treatment", str "medicine",
   str "diagnosis", str "patient", str "doctor", str "hospital",
   str "pain", str "fever", str "infection", str "medical",
   str "health", str "illness", str "condition", str "therapy",
   str "prescription", str "medication", str "surgery", str "procedure",
   str "test", str "blood", str "heart", str "lung", str "brain",
   str "liver", str "kidney"]

/-- `detect_medical_terms` (`pdf_processor.py`). -/
def detect_medical_terms (t : Str) : Bool :=
  medical_keywords.any (fun kw => isSubstr kw (lowerStr t))

/-- The metadata dict built for each chunk in `create_smart_chunks`. -/
structure ChunkMeta where
  chunk_id : Nat
  source : Str
  length : Nat
  word_count : Nat
  has_medical_terms : Bool
deriving Repr, DecidableEq, Inhabited

/-- A processed chunk: the `{'text': ..., 'metadata': ...}` dict. -/
structure Chunk where
  text : Str
  metadata : ChunkMeta
deriving Repr, DecidableEq, Inhabited

/-- Enhancement of one enumerated raw chunk (`create_smart_chunks` loop
body): strip it, drop it when shorter than 50 characters, otherwise attach
the metadata record carrying the enumeration index `i` as `chunk_id`. -/
def enhanceChunk (p : Nat × Str) : Option Chunk :=
  let c := stripStr p.2
  if c.length < 50 then none
  else some
    { text := c
      metadata :=
        { chunk_id := p.1
          source := str "medical_encyclopedia"
          length := c.length
          word_count := wordCount c
          has_medical_terms := detect_medical_terms c } }

/-- `create_smart_chunks` (`pdf_processor.py`), from the point where the
`RecursiveCharacterTextSplitter` (external library code) has produced the
raw chunk list: enumerate the raw chunks from 0, strip each, skip the ones
shorter than 50 characters and attach metadata to the rest. -/
def create_smart_chunks (chunks : List Str) : List Chunk :=
  (chunks.enum).filterMap enhanceChunk

/-! ## The vector database (`vector_database.py`)

The module-level globals `vector_index`, `vector_texts`,
`vector_metadatas`, `dimension` form the state.  The FAISS index object is
represented by its `ntotal` (the only attribute the claims concern);
`vector_index is None` is `index = none`.  Its `search` method is an
opaque function passed as a parameter where needed. -/

/-- The mutable-global state of `vector_database.py`. -/
structure VDB where
  index : Option Nat
  texts : List Str
  metadatas : List ChunkMeta
  dimension : Option Nat
deriving Repr, DecidableEq

/-- The ANN index count: `vector_index.ntotal`, 0 when no index exists. -/
def indexCount (s : VDB) : Nat := s.index.getD 0

/-- `initialize_embeddings`: loads the sentence-transformer (external) and
records its embedding dimension `d` in the global `dimension`. -/
def initialize_embeddings (d : Nat) (s : VDB) : VDB :=
  { s with dimension := some d }

/-- `create_vector_index`: initialize embeddings when `dimension` is still
unset, then install a fresh empty HNSW index (`ntotal = 0`). -/
def create_vector_index (d : Nat) (s : VDB) : VDB :=
  let s1 := if s.dimension = none then initialize_embeddings d s else s
  { s1 with index := some 0 }

/-- An embedding vector (float components modelled as rationals). -/
abbrev Vec := List ℚ

/-- The batching loop of `generate_embeddings`: encode the texts in batches
of 32 via the external model `encode` (which may raise), concatenating the
per-batch results in order; the first raised exception propagates.  `fuel`
is an upper bound on the number of loop iterations (any value above
`texts.length` is exact). -/
def genEmbAux (encode : List Str → Except Unit (List Vec)) :
    Nat → List Str → Except Unit (List Vec)
  | 0, _ => .ok []
  | _ + 1, [] => .ok []
  | fuel + 1, t :: ts =>
    match encode ((t :: ts).take 32) with
    | .error e => .error e
    | .ok es =>
      match genEmbAux encode fuel ((t :: ts).drop 32) with
      | .error e => .error e
      | .ok rest => .ok (es ++ rest)

/-- `generate_embeddings` (`vector_database.py`). -/
def generate_embeddings (encode : List Str → Except Unit (List Vec))
    (texts : List Str) : Except Unit (List Vec) :=
  genEmbAux encode (texts.length + 1) texts

/-- Outcome of a Python call that mutates global state: either a normal
return carrying the new state and a value, or a raised exception carrying
the state as mutated up to the raise point. -/
inductive PyResult (σ : Type) (α : Type) where
  | ok (s : σ) (a : α)
  | exn (s : σ)
deriving Repr, DecidableEq

/-- `add_to_vector_database` (`vector_database.py`): create the index when
absent, extract texts and metadata, embed the texts (the only fallible
step; an embedding failure propagates before any collection is touched),
add the embedding rows to the index, then extend the text and metadata
stores. -/
def add_to_vector_database (encode : List Str → Except Unit (List Vec))
    (d : Nat) (s : VDB) (chunks : List Chunk) : PyResult VDB Unit :=
  let s1 := if s.index = none then create_vector_index d s else s
  let texts := chunks.map Chunk.text
  let metadatas := chunks.map Chunk.metadata
  match generate_embeddings encode texts with
  | .error _ => .exn s1
  | .ok embs =>
    let s2 := { s1 with index := some (s1.index.getD 0 + embs.length) }
    .ok { s2 with
          texts := s2.texts ++ texts
          metadatas := s2.metadatas ++ metadatas } ()

/-- `similarity_search` (`vector_database.py`).  `search` is the opaque
`vector_index.search` method, returning for the (embedded, normalized)
query a row of `(score, idx)` pairs; scores are rationals, `idx = -1`
marks a padding slot.  Results pair the stored text and metadata at `idx`
with the score, keeping only pairs with `idx ≠ -1` and score above the
0.3 relevance threshold. -/
def similarity_search (search : Str → Nat → List (ℚ × Int)) (s : VDB)
    (q : Str) (k : Nat) : List (Str × ℚ × ChunkMeta) :=
  match s.index with
  | none => []
  | some n =>
    if n = 0 then []
    else
      (search q k).filterMap (fun p =>
        if p.2 ≠ -1 ∧ (3 : ℚ) / 10 < p.1 then
          some (s.texts.getD p.2.toNat [], p.1,
                s.metadatas.getD p.2.toNat default)
        else none)

/-- A write to disk performed by `save_vector_database`: either the FAISS
index file `{path}.faiss` (recorded by its `ntotal`) or the pickle side
file `{path}.pkl` with its three dict fields. -/
inductive WriteOp where
  | faiss (ntotal : Nat)
  | pkl (texts : List Str) (metadatas : List ChunkMeta) (dimension : Option Nat)
deriving Repr, DecidableEq

/-- `save_vector_database` (`vector_database.py`): write the FAISS file
only when an index exists and holds at least one vector, then always write
the pickle side file with the texts, metadata and dimension. -/
def save_vector_database (s : VDB) : List WriteOp :=
  (match s.index with
   | some n => if 0 < n then [WriteOp.faiss n] else []
   | none => []) ++ [WriteOp.pkl s.texts s.metadatas s.dimension]

/-- The dict stored in the `.pkl` blob, as read back by `pickle.load`. -/
structure PklData where
  texts : List Str
  metadatas : List ChunkMeta
  dimension : Option Nat
deriving Repr, DecidableEq

/-- Tail of `load_vector_database` after the two file reads: initialize
the embedding model (fallible, external); on success record its dimension
and return `True`, on an exception the catch-all returns `False`. -/
def loadFinish (initEmb : Except Unit Nat) (s : VDB) : Bool × VDB :=
  match initEmb with
  | .error _ => (false, s)
  | .ok d => (true, { s with dimension := some d })

/-- Middle of `load_vector_database`: when `{path}.pkl` exists, read and
deserialize it (fallible); a raise is caught by the catch-all and yields
`False` with the state as mutated so far; a missing file is skipped. -/
def loadAfterFaiss (exPkl : Bool) (readPkl : Except Unit PklData)
    (initEmb : Except Unit Nat) (s : VDB) : Bool × VDB :=
  if exPkl then
    match readPkl with
    | .error _ => (false, s)
    | .ok p =>
      loadFinish initEmb
        { s with texts := p.texts, metadatas := p.metadatas,
                 dimension := p.dimension }
  else loadFinish initEmb s

/-- `load_vector_database` (`vector_database.py`): inside a catch-all
`try`, read `{path}.faiss` when it exists, read `{path}.pkl` when it
exists, initialize the embedding model, and return `True`; any raise along
the way is caught and yields `False`.  `exFaiss`/`exPkl` are the
`os.path.exists` answers; `readIndex`, `readPkl`, `initEmb` are the
fallible external operations.  The function is total: no exception
escapes to the caller. -/
def load_vector_database (exFaiss exPkl : Bool) (readIndex : Except Unit Nat)
    (readPkl : Except Unit PklData) (initEmb : Except Unit Nat)
    (s : VDB) : Bool × VDB :=
  if exFaiss then
    match readIndex with
    | .error _ => (false, s)
    | .ok n => loadAfterFaiss exPkl readPkl initEmb { s with index := some n }
  else loadAfterFaiss exPkl readPkl initEmb s

/-! ## The answer pipeline (`retrieval_qa.py`) -/

/-- Python `s.replace(pat, repl)` for a non-empty `pat`: non-overlapping
left-to-right replacement.  `fuel` bounds the scan (any value above
`s.length` is exact). -/
def replaceAux (pat repl : Str) : Nat → Str → Str
  | 0, s => s
  | _ + 1, [] => []
  | f + 1, c :: cs =>
    if leads pat (c :: cs) then repl ++ replaceAux pat repl f ((c :: cs).drop pat.length)
    else c :: replaceAux pat repl f cs

/-- Python `s.replace(pat, repl)`. -/
def replaceStr (pat repl s : Str) : Str := replaceAux pat repl (s.length + 1) s

/-- `format_medical_response` (`retrieval_qa.py`): drop `**` and `*`,
collapse one level of triple newlines, strip.  The disclaimer in the
source is the empty string and `response.endswith("")` is always true, so
no suffix is ever appended. -/
def format_medical_response (r : Str) : Str :=
  stripStr (replaceStr (str "\n\n\n") (str "\n\n")
    (replaceStr (str "*") [] (replaceStr (str "**") [] r)))

/-- The `vague_phrases` list of `is_response_complete`, in source order. -/
def vague_phrases : List Str :=
  [str "I" ++ [apos] ++ str "m sorry", str "I don" ++ [apos] ++ str "t know",
   str "insufficient information", str "not enough context",
   str "I cannot provide", str "I am unable"]

/-- `is_response_complete` (`retrieval_qa.py`): reject empty or short
(< 80 characters) responses and responses containing a vague phrase
case-insensitively. -/
def is_response_complete (r : Str) : Bool :=
  if r.length < 80 then false
  else vague_phrases.all (fun p => ! isSubstr (lowerStr p) (lowerStr r))

/-- The fixed fallback string returned by `generate_medical_response`
when its catch-all `except` fires. -/
def apologyStr : Str :=
  str "I apologize, but I encountered an error while processing your medical question. Please try rephrasing your question or consult a healthcare professional directly."

/-- The critic loop of `generate_medical_response`.  `gen k` performs one
whole iteration body up to the raw completion text: retrieval at breadth
`k`, prompt construction and the completion call; it may raise.  `n` is
the remaining iteration budget (the loop runs while `top_k ≤ 12`, so `n`
corresponds to `13 - k`), `fin` the current `final_response`, `calls` the
breadths used so far (for accounting).  A raise propagates out of the
loop; acceptance by the critic breaks out with the formatted response. -/
def criticLoop (gen : Nat → Except Unit Str) :
    Nat → Nat → Str → List Nat → Except Unit (Str × List Nat)
  | 0, _, fin, calls => .ok (fin, calls)
  | n + 1, k, _, calls =>
    match gen k with
    | .error e => .error e
    | .ok resp =>
      let f := format_medical_response resp
      if is_response_complete f then .ok (f, calls ++ [k])
      else criticLoop gen n (k + 1) f (calls ++ [k])

/-- `generate_medical_response` (`retrieval_qa.py`): run the critic loop
from `top_k = 3` with bound `max_top_k = 12` inside a catch-all `try`;
any exception anywhere in the loop is converted to the fixed apology
string.  The function is total: no exception reaches the caller. -/
def generate_medical_response (gen : Nat → Except Unit Str) : Str :=
  match criticLoop gen 10 3 [] [] with
  | .ok (r, _) => r
  | .error _ => apologyStr

/-- The breadths at which `generate_medical_response` issued completion
calls (empty when an exception aborted the loop). -/
def responseCalls (gen : Nat → Except Unit Str) : List Nat :=
  match criticLoop gen 10 3 [] [] with
  | .ok (_, cs) => cs
  | .error _ => []

/-- Lift an exception-free completion service into the loop interface. -/
def genOk (gen : Nat → Str) : Nat → Except Unit Str := fun k => .ok (gen k)

/-! ## Text preprocessing (`pdf_processor.py`)

Each `re.sub` of `preprocess_medical_text` is translated into a dedicated
left-to-right scanner with the exact matching and continuation semantics
of `re.sub` (non-overlapping matches, scan resumes after each match).
`fuel` arguments bound the scans; every scanner consumes at least one
character per step, so `length + 1` fuel is exact. -/

/-- Python `\w` on the ASCII range: alphanumeric or underscore. -/
def isWordChar (c : Char) : Bool := c.isAlphanum || c = '_'

/-- Length of the match of `lit ++ \d+.*?\n` at the head of `s`, if any:
the literal, at least one digit, then everything up to and including the
first newline (a lazy `.*?` cannot cross `\n`). -/
def headerMatchLen (lit : Str) (s : Str) : Option Nat :=
  if leads lit s then
    match s.drop lit.length with
    | [] => none
    | d :: rest =>
      if d.isDigit then
        match List.findIdx? (fun c => c = '\n') (d :: rest) with
        | some i => some (lit.length + i + 1)
        | none => none
      else none
  else none

/-- `re.sub(lit + r'\d+.*?\n', '', s)` scanner. -/
def removeHeaderAux (lit : Str) : Nat → Str → Str
  | 0, s => s
  | _ + 1, [] => []
  | f + 1, c :: cs =>
    match headerMatchLen lit (c :: cs) with
    | some m => removeHeaderAux lit f ((c :: cs).drop m)
    | none => c :: removeHeaderAux lit f cs

/-- `re.sub(lit + r'\d+.*?\n', '', s)`. -/
def removeHeader (lit s : Str) : Str := removeHeaderAux lit (s.length + 1) s

/-- `re.sub(r'\n\d+\n', '\n', s)` scanner: a newline, one or more digits
and a closing newline collapse to a single newline; the scan resumes after
the consumed closing newline. -/
def stripNumLinesAux : Nat → Str → Str
  | 0, s => s
  | _ + 1, [] => []
  | f + 1, c :: cs =>
    if c = '\n' then
      let ds := cs.takeWhile Char.isDigit
      if ds.isEmpty then '\n' :: stripNumLinesAux f cs
      else
        match cs.drop ds.length with
        | d2 :: _ =>
          if d2 = '\n' then '\n' :: stripNumLinesAux f (cs.drop (ds.length + 1))
          else '\n' :: stripNumLinesAux f cs
        | [] => '\n' :: stripNumLinesAux f cs
    else c :: stripNumLinesAux f cs

/-- `re.sub(r'\n\d+\n', '\n', s)`. -/
def stripNumLines (s : Str) : Str := stripNumLinesAux (s.length + 1) s

/-- Case-insensitive prefix test (`re.IGNORECASE` literal matching). -/
def icLeads (pat s : Str) : Bool := leads (lowerStr pat) (lowerStr s)

/-- `re.sub(r'\b' + re.escape(ab) + r'\b', full, s, flags=re.IGNORECASE)`
scanner.  Every abbreviation in the table starts and ends with a word
character, so the `\b` conditions reduce to: the preceding original
character (tracked in `prev`) is absent or not a word character, and the
character after the match is absent or not a word character. -/
def wordSubAux (ab full : Str) : Nat → Option Char → Str → Str
  | 0, _, s => s
  | _ + 1, _, [] => []
  | f + 1, prev, c :: cs =>
    let s := c :: cs
    let prevOk := match prev with
      | none => true
      | some p => ! isWordChar p
    let nextOk := match s.drop ab.length with
      | [] => true
      | nx :: _ => ! isWordChar nx
    if icLeads ab s && prevOk && nextOk then
      full ++ wordSubAux ab full f (some ((s.take ab.length).getLastD c)) (s.drop ab.length)
    else c :: wordSubAux ab full f (some c) cs

/-- Whole-word, case-insensitive replacement of `ab` by `full`. -/
def wordSub (ab full s : Str) : Str := wordSubAux ab full (s.length + 1) none s

/-- The `medical_abbrevs` dict of `preprocess_medical_text`, in source
(insertion) order. -/
def medical_abbrevs : List (Str × Str) :=
  [(str "mg/dl", str "milligrams per deciliter"),
   (str "mmHg", str "millimeters of mercury"),
   (str "CBC", str "complete blood count"),
   (str "BP", str "blood pressure"),
   (str "HR", str "heart rate"),
   (str "RBC", str "red blood cells"),
   (str "WBC", str "white blood cells"),
   (str "ECG", str "electrocardiogram"),
   (str "EKG", str "electrocardiogram"),
   (str "MRI", str "magnetic resonance imaging"),
   (str "CT", str "computed tomography"),
   (str "ICU", str "intensive care unit"),
   (str "ER", str "emergency room"),
   (str "IV", str "intravenous"),
   (str "IM", str "intramuscular"),
   (str "PO", str "by mouth"),
   (str "PRN", str "as needed"),
   (str "BID", str "twice daily"),
   (str "TID", str "three times daily"),
   (str "QID", str "four times daily")]

/-- The abbreviation-expansion loop of `preprocess_medical_text`. -/
def applyAbbrevs (s : Str) : Str :=
  medical_abbrevs.foldl (fun t p => wordSub p.1 p.2 t) s

/-- `re.sub(r'\s+', ' ', s)`: collapse every maximal whitespace run to a
single space (emitted at the end of the run, which yields the same
string). -/
def collapseWs : Str → Str
  | [] => []
  | c :: cs =>
    if isSpaceChar c then
      match cs with
      | d :: _ => if isSpaceChar d then collapseWs cs else ' ' :: collapseWs cs
      | [] => [' ']
    else c :: collapseWs cs

/-- Index of the last newline in `run`, if any. -/
def lastNewlineIdx (run : Str) : Option Nat :=
  match List.findIdx? (fun c => c = '\n') run.reverse with
  | some j => some (run.length - 1 - j)
  | none => none

/-- `re.sub(r'\n\s*\n', '\n\n', s)` scanner: at a newline, the greedy
`\s*` followed by a backtracked `\n` matches up to the last newline of the
following whitespace run. -/
def paraAux : Nat → Str → Str
  | 0, s => s
  | _ + 1, [] => []
  | f + 1, c :: cs =>
    if c = '\n' then
      let run := cs.takeWhile isSpaceChar
      match lastNewlineIdx run with
      | some i => '\n' :: '\n' :: paraAux f (cs.drop (i + 1))
      | none => '\n' :: paraAux f cs
    else c :: paraAux f cs

/-- `re.sub(r'\n\s*\n', '\n\n', s)`. -/
def paraFix (s : Str) : Str := paraAux (s.length + 1) s

/-- The punctuation explicitly preserved by the character filter. -/
def allowedPunct : List Char :=
  ['.', ',', ';', ':', '!', '?', '-', '(', ')', '%', '°', '+', '/']

/-- `re.sub(r'[^\w\s\.\,\;\:\!\?\-\(\)\%\°\+\-\/]', ' ', s)`: replace
every character outside the preserved class by a space. -/
def charFilter (s : Str) : Str :=
  s.map (fun c =>
    if isWordChar c || isSpaceChar c || allowedPunct.contains c then c else ' ')

/-- The punctuation class of `r'\s+([,.!?;:])'`. -/
def sbpPunct : List Char := [',', '.', '!', '?', ';', ':']

/-- `re.sub(r'\s+([,.!?;:])', r'\1', s)` scanner: a maximal whitespace run
immediately followed by one of the punctuation marks is deleted (shorter
runs cannot match, since the captured class excludes whitespace). -/
def sbpAux : Nat → Str → Str
  | 0, s => s
  | _ + 1, [] => []
  | f + 1, c :: cs =>
    if isSpaceChar c then
      let run := (c :: cs).takeWhile isSpaceChar
      match (c :: cs).drop run.length with
      | p :: rest =>
        if sbpPunct.contains p then p :: sbpAux f rest
        else run ++ sbpAux f (p :: rest)
      | [] => run
    else c :: sbpAux f cs

/-- `re.sub(r'\s+([,.!?;:])', r'\1', s)`. -/
def sbpFix (s : Str) : Str := sbpAux (s.length + 1) s

/-- The leading class of `r'([.!?])\s*([A-Z])'`. -/
def pcPunct : List Char := ['.', '!', '?']

/-- Uppercase ASCII letter (`[A-Z]`). -/
def isUpperChar (c : Char) : Bool := 'A' ≤ c && c ≤ 'Z'

/-- `re.sub(r'([.!?])\s*([A-Z])', r'\1 \2', s)` scanner: sentence
punctuation, the whole following whitespace run and a capital letter
rewrite to punctuation, one space, capital (shorter `\s*` choices cannot
match, since `[A-Z]` excludes whitespace). -/
def pcAux : Nat → Str → Str
  | 0, s => s
  | _ + 1, [] => []
  | f + 1, c :: cs =>
    if pcPunct.contains c then
      let run := cs.takeWhile isSpaceChar
      match cs.drop run.length with
      | a :: rest =>
        if isUpperChar a then c :: ' ' :: a :: pcAux f rest
        else c :: pcAux f cs
      | [] => c :: pcAux f cs
    else c :: pcAux f cs

/-- `re.sub(r'([.!?])\s*([A-Z])', r'\1 \2', s)`. -/
def pcFix (s : Str) : Str := pcAux (s.length + 1) s

/-- `preprocess_medical_text` (`pdf_processor.py`): the ten cleaning steps
in source order — header/chapter line removal, bare page-number line
removal, abbreviation expansion, whitespace collapse, the (dead, because
it runs after the whitespace collapse) paragraph normalization, the
special-character filter, punctuation spacing fixes, and a final strip. -/
def preprocess_medical_text (t : Str) : Str :=
  stripStr (pcFix (sbpFix (charFilter (paraFix (collapseWs (applyAbbrevs
    (stripNumLines (removeHeader (str "Chapter ") (removeHeader (str "Page ") t)))))))))

/-! ## Concrete instances used to exercise the operations -/

/-- The initial global state of `vector_database.py`: no index, empty
stores, no dimension. -/
def vdb0 : VDB := ⟨none, [], [], none⟩

/-- An embedder that returns one (empty) vector per input text and never
raises. -/
def encodeOkW : List Str → Except Unit (List Vec) :=
  fun b => .ok (b.map fun _ => [])

/-- A sample chunk of 60 characters. -/
def chunkW : Chunk :=
  ⟨List.replicate 60 'a', ⟨0, str "medical_encyclopedia", 60, 1, false⟩⟩

/-- A sample index `search` method: four slots, sorted by non-increasing
score, one of them a `-1` padding slot and one below the 0.3 threshold. -/
def searchW : Str → Nat → List (ℚ × Int) :=
  fun _ _ => [(1, 0), (1 / 2, -1), (2 / 5, 1), (1 / 5, 2)]

/-- A populated store matching `searchW` (three vectors). -/
def vdbW : VDB :=
  ⟨some 3, [str "t0", str "t1", str "t2"],
   [⟨0, [], 2, 1, false⟩, ⟨1, [], 2, 1, false⟩, ⟨2, [], 2, 1, false⟩],
   some 384⟩

/-- A completion service whose every candidate is rejected by the critic
(two characters is below the 80-character bar). -/
def genRejectW : Nat → Str := fun _ => str "hi"

/-- A completion service that raises on the very first call. -/
def genErrW : Nat → Except Unit Str :=
  fun k => if k = 3 then .error () else .ok []

/-- A raw chunk too short to survive `create_smart_chunks`. -/
def chunkShortW : Str := str "ab"

/-- A raw chunk long enough to survive `create_smart_chunks`. -/
def chunkLongW : Str := List.replicate 60 'a'

/-- Representative inputs for the normalizer: plain sentences,
abbreviations, paragraph breaks, headers, double spaces, punctuation
spacing, and the empty string. -/
def representativeInputs : List Str :=
  [str "Simple medical text.", str "BP was 120/80 mmHg.", str "a\n\nb",
   str "Page 3 header\nBody text here.", str "fever,  cough", [],
   str "The patient had a fever.Treatment was given."]

/-! ## Claims -/

/-- C9, counterexample: the claim asserts that "hypertension" is not
literally in the keyword list of the domain pre-filter, but it is the
27th entry of `medical_indicators` in `retrieval_qa.py`. -/
theorem c9_counterexample : str "hypertension" ∈ medical_indicators := by
  decide

/-- C9 (amended): the domain pre-filter classifies "What is
hypertension?" as in-domain and "What's the weather today?" as
out-of-domain; both "hypertension" (which, unlike the claim states, is
literally in the keyword list) and "what is" match the first query. -/
theorem c9_domain_prefilter :
    validate_medical_query (str "What is hypertension?") = true ∧
    str "hypertension" ∈ medical_indicators ∧
    isSubstr (str "what is") (lowerStr (str "What is hypertension?")) = true ∧
    validate_medical_query weatherQuery = false := by
  decide

/-- C10: `save_vector_database` always writes the pickle side file with
the passage texts, the metadata and the embedding dimension; it writes
the FAISS index file exactly when an index exists and holds at least one
vector; in particular saving an empty corpus yields only the side file. -/
theorem c10_save_writes (s : VDB) :
    WriteOp.pkl s.texts s.metadatas s.dimension ∈ save_vector_database s ∧
    ((∃ n, WriteOp.faiss n ∈ save_vector_database s) ↔
      ∃ n, s.index = some n ∧ 0 < n) ∧
    ((∀ n, s.index = some n → n = 0) →
      save_vector_database s = [WriteOp.pkl s.texts s.metadatas s.dimension]) := by
  obtain ⟨ix, tx, md, dim⟩ := s
  refine ⟨?_, ?_, ?_⟩
  · cases ix with
    | none => simp [save_vector_database]
    | some n => by_cases h : 0 < n <;> simp [save_vector_database, h]
  · cases ix with
    | none => simp [save_vector_database]
    | some n =>
      by_cases h : 0 < n <;> simp [save_vector_database, h]
  · intro hall
    cases ix with
    | none => simp [save_vector_database]
    | some n =>
      have hn : n = 0 := hall n rfl
      subst hn
      simp [save_vector_database]

/-- C10, witness: saving the pristine empty state writes exactly the side
file and no FAISS file. -/
theorem c10_save_witness :
    save_vector_database vdb0 = [WriteOp.pkl [] [] none] :=
  (c10_save_writes vdb0).2.2 (fun _ h => Option.noConfusion h)

/-- C6, counterexample: with both on-disk files missing (a persistence
failure per the claim) and the embedding model initializing fine,
`load_vector_database` returns `True`, not `False` — the existence checks
merely skip missing files. -/
theorem c6_counterexample :
    (load_vector_database false false (Except.error ()) (Except.error ())
      (Except.ok 384) vdb0).1 = true := by
  decide

/-- C6 (amended): `load_vector_database` is total (the catch-all `except`
means no exception reaches the caller) and returns `True` exactly when
every step it actually attempts succeeds: reading the FAISS file when it
exists, deserializing the pickle blob when it exists, and initializing
the embedding model.  A corrupt (failing) blob therefore yields `False`,
but missing files are skipped and do not make the call fail. -/
theorem c6_load_error_handling (exF exP : Bool) (rI : Except Unit Nat)
    (rP : Except Unit PklData) (iE : Except Unit Nat) (s : VDB) :
    (load_vector_database exF exP rI rP iE s).1 = true ↔
      ((exF = true → ∃ n, rI = .ok n) ∧ (exP = true → ∃ p, rP = .ok p) ∧
        ∃ d, iE = .ok d) := by
  cases exF <;> cases exP <;> cases rI <;> cases rP <;> cases iE <;>
    simp [load_vector_database, loadAfterFaiss, loadFinish]

/-- C6, witness: a fully successful load (both files present, both reads
succeeding, embeddings initializing) returns `True`. -/
theorem c6_load_witness :
    (load_vector_database true true (Except.ok 5) (Except.ok ⟨[], [], none⟩)
      (Except.ok 384) vdb0).1 = true :=
  (c6_load_error_handling true true (Except.ok 5) (Except.ok ⟨[], [], none⟩)
      (Except.ok 384) vdb0).mpr
    ⟨fun _ => ⟨5, rfl⟩, fun _ => ⟨⟨[], [], none⟩, rfl⟩, ⟨384, rfl⟩⟩

/-- C4: the normalizer does NOT preserve paragraph breaks.  On the input
"a\n\nb" it returns "a b": the whitespace collapse on line 63 of
`pdf_processor.py` runs first and erases every newline, so the
paragraph-preserving substitution on line 64 is dead code and no output
ever contains a double newline. -/
theorem c4_paragraph_break_lost :
    preprocess_medical_text (str "a\n\nb") = str "a b" ∧
    isSubstr (str "\n\n") (preprocess_medical_text (str "a\n\nb")) = false := by
  decide

/-- Every chunk surviving the enhancement loop has a stripped text of at
least 50 characters and a `chunk_id` at least the starting enumeration
index. -/
lemma enhance_mem_bound (n : Nat) (chs : List Str) :
    ∀ c ∈ (List.enumFrom n chs).filterMap enhanceChunk,
      50 ≤ c.text.length ∧ n ≤ c.metadata.chunk_id := by
  induction chs generalizing n with
  | nil => simp
  | cons ch t ih =>
    intro c hc
    rw [List.enumFrom_cons, List.filterMap_cons] at hc
    by_cases h : (stripStr ch).length < 50
    · have he : enhanceChunk (n, ch) = none := by simp [enhanceChunk, h]
      rw [he] at hc
      obtain ⟨h1, h2⟩ := ih (n + 1) c hc
      exact ⟨h1, by omega⟩
    · have he : enhanceChunk (n, ch) =
        some ⟨stripStr ch,
          ⟨n, str "medical_encyclopedia", (stripStr ch).length,
           wordCount (stripStr ch), detect_medical_terms (stripStr ch)⟩⟩ := by
        simp [enhanceChunk, h]
      rw [he] at hc
      rcases List.mem_cons.mp hc with rfl | hc
      · refine ⟨?_, le_refl n⟩
        show 50 ≤ (stripStr ch).length
        omega
      · obtain ⟨h1, h2⟩ := ih (n + 1) c hc
        exact ⟨h1, by omega⟩

/-- The `chunk_id`s of the surviving chunks are strictly increasing (they
are the original enumeration indices of the survivors). -/
lemma enhance_ids_pairwise (n : Nat) (chs : List Str) :
    List.Pairwise (· < ·)
      (((List.enumFrom n chs).filterMap enhanceChunk).map
        (fun c => c.metadata.chunk_id)) := by
  induction chs generalizing n with
  | nil => simp
  | cons ch t ih =>
    rw [List.enumFrom_cons, List.filterMap_cons]
    by_cases h : (stripStr ch).length < 50
    · have he : enhanceChunk (n, ch) = none := by simp [enhanceChunk, h]
      rw [he]
      exact ih (n + 1)
    · have he : enhanceChunk (n, ch) =
        some ⟨stripStr ch,
          ⟨n, str "medical_encyclopedia", (stripStr ch).length,
           wordCount (stripStr ch), detect_medical_terms (stripStr ch)⟩⟩ := by
        simp [enhanceChunk, h]
      rw [he, List.map_cons]
      refine List.Pairwise.cons ?_ (ih (n + 1))
      intro b hb
      rcases List.mem_map.mp hb with ⟨c, hc, rfl⟩
      have := (enhance_mem_bound (n + 1) t c hc).2
      simpa using by omega

/-- When no chunk is discarded, the ids are exactly `n, n+1, ...`. -/
lemma enhance_ids_all (n : Nat) (chs : List Str)
    (h : ∀ ch ∈ chs, 50 ≤ (stripStr ch).length) :
    ((List.enumFrom n chs).filterMap enhanceChunk).map
        (fun c => c.metadata.chunk_id) = List.range' n chs.length := by
  induction chs generalizing n with
  | nil => simp
  | cons ch t ih =>
    rw [List.enumFrom_cons, List.filterMap_cons]
    have h1 : ¬ (stripStr ch).length < 50 := by
      have := h ch (List.mem_cons_self ch t)
      omega
    have he : enhanceChunk (n, ch) =
      some ⟨stripStr ch,
        ⟨n, str "medical_encyclopedia", (stripStr ch).length,
         wordCount (stripStr ch), detect_medical_terms (stripStr ch)⟩⟩ := by
      simp [enhanceChunk, h1]
    rw [he, List.map_cons, ih (n + 1) (fun c hc => h c (List.mem_cons_of_mem _ hc)),
      List.length_cons, List.range'_succ]

/-- C5, counterexample: when a raw chunk is discarded for being shorter
than 50 characters, the surviving ids are NOT the sequence 0, 1, 2, ...:
with chunks ["ab", 60 × 'a'] the single survivor carries id 1, not 0 —
`chunk_id` is the pre-filter enumeration index. -/
theorem c5_counterexample :
    (create_smart_chunks [chunkShortW, chunkLongW]).map
        (fun c => c.metadata.chunk_id) ≠
      List.range (create_smart_chunks [chunkShortW, chunkLongW]).length := by
  decide

/-- C5 (amended): `create_smart_chunks` discards every trimmed chunk
shorter than 50 characters (all survivors have `50 ≤ len(text)`), and the
surviving ids are the 0-based pre-filter enumeration indices: strictly
increasing, and equal to `0, 1, ..., len-1` exactly in the case that no
chunk is discarded. -/
theorem c5_chunk_filter_and_ids (chs : List Str) :
    (∀ c ∈ create_smart_chunks chs, 50 ≤ c.text.length) ∧
    List.Pairwise (· < ·)
      ((create_smart_chunks chs).map (fun c => c.metadata.chunk_id)) ∧
    ((∀ ch ∈ chs, 50 ≤ (stripStr ch).length) →
      (create_smart_chunks chs).map (fun c => c.metadata.chunk_id) =
        List.range chs.length) := by
  have hrw : create_smart_chunks chs = (List.enumFrom 0 chs).filterMap enhanceChunk := rfl
  refine ⟨fun c hc => (enhance_mem_bound 0 chs c (hrw ▸ hc)).1, ?_, fun hall => ?_⟩
  · rw [hrw]
    exact enhance_ids_pairwise 0 chs
  · rw [hrw, enhance_ids_all 0 chs hall, List.range_eq_range']

/-- C5, witness: a single 60-character chunk survives with id sequence
`[0]` = `range 1`. -/
theorem c5_chunk_witness :
    (create_smart_chunks [chunkLongW]).map (fun c => c.metadata.chunk_id) =
      List.range 1 :=
  (c5_chunk_filter_and_ids [chunkLongW]).2.2 (by decide)

/-- What the `similarity_search` result filter produces, pointwise. -/
lemma similarity_filter_spec (s : VDB) (p : ℚ × Int) (r : Str × ℚ × ChunkMeta)
    (h : (if p.2 ≠ -1 ∧ (3 : ℚ) / 10 < p.1 then
            some (s.texts.getD p.2.toNat [], p.1,
                  s.metadatas.getD p.2.toNat default)
          else none) = some r) :
    p.2 ≠ -1 ∧ (3 : ℚ) / 10 < p.1 ∧
      r = (s.texts.getD p.2.toNat [], p.1, s.metadatas.getD p.2.toNat default) := by
  by_cases hc : p.2 ≠ -1 ∧ (3 : ℚ) / 10 < p.1
  · rw [if_pos hc] at h
    exact ⟨hc.1, hc.2, (Option.some.inj h).symm⟩
  · rw [if_neg hc] at h
    exact absurd h (by simp)

/-- C2: `similarity_search` returns `[]` when no index exists or the index
is empty; otherwise it keeps only search slots with score strictly above
0.3 and index different from -1, returns at most as many results as the
index returned slots (hence at most `k`), and preserves the
non-increasing score order of the index output. -/
theorem c2_similarity_search_filter (search : Str → Nat → List (ℚ × Int))
    (s : VDB) (q : Str) (k : Nat) :
    ((s.index = none ∨ s.index = some 0) → similarity_search search s q k = []) ∧
    (∀ r ∈ similarity_search search s q k, ¬ r.2.1 ≤ 3 / 10) ∧
    ((search q k).length ≤ k → (similarity_search search s q k).length ≤ k) ∧
    (List.Pairwise (fun a b => (b.1 : ℚ) ≤ a.1) (search q k) →
      List.Pairwise (fun a b => b.2.1 ≤ a.2.1) (similarity_search search s q k)) ∧
    (∀ r ∈ similarity_search search s q k, ∃ p ∈ search q k,
      p.2 ≠ -1 ∧ (3 : ℚ) / 10 < p.1 ∧
      r = (s.texts.getD p.2.toNat [], p.1, s.metadatas.getD p.2.toNat default)) := by
  cases hix : s.index with
  | none =>
    refine ⟨fun _ => ?_, ?_, ?_, ?_, ?_⟩ <;> simp [similarity_search, hix]
  | some n =>
    by_cases hn : n = 0
    · subst hn
      refine ⟨fun _ => ?_, ?_, ?_, ?_, ?_⟩ <;> simp [similarity_search, hix]
    · have hs : similarity_search search s q k =
        (search q k).filterMap (fun p =>
          if p.2 ≠ -1 ∧ (3 : ℚ) / 10 < p.1 then
            some (s.texts.getD p.2.toNat [], p.1,
                  s.metadatas.getD p.2.toNat default)
          else none) := by
        simp [similarity_search, hix, hn]
      refine ⟨fun hd => ?_, ?_, ?_, ?_, ?_⟩
      · rcases hd with hd | hd
        · cases hd
        · injection hd with hd
          exact absurd hd hn
      · intro r hr
        rw [hs] at hr
        rcases List.mem_filterMap.mp hr with ⟨p, _, hp⟩
        have := (similarity_filter_spec s p r hp).2.1
        have hr2 : r.2.1 = p.1 := by
          rw [(similarity_filter_spec s p r hp).2.2]
        rw [hr2]
        exact not_le.mpr this
      · intro hk
        rw [hs]
        exact le_trans (List.length_filterMap_le _ _) hk
      · intro hsorted
        rw [hs, List.pairwise_filterMap]
        refine hsorted.imp ?_
        intro a b hab r hr r' hr'
        have ha := similarity_filter_spec s a r hr
        have hb := similarity_filter_spec s b r' hr'
        rw [ha.2.2, hb.2.2]
        exact hab
      · intro r hr
        rw [hs] at hr
        rcases List.mem_filterMap.mp hr with ⟨p, hpmem, hp⟩
        have h := similarity_filter_spec s p r hp
        exact ⟨p, hpmem, h.1, h.2.1, h.2.2⟩

/-- C2, witness: on a concrete sorted four-slot search result with one
-1 padding slot and one below-threshold slot, the filtered result list is
sorted, short enough, and scores exceed 0.3. -/
theorem c2_similarity_witness :
    List.Pairwise (fun a b => (b.2.1 : ℚ) ≤ a.2.1)
      (similarity_search searchW vdbW (str "q") 4) :=
  (c2_similarity_search_filter searchW vdbW (str "q") 4).2.2.2.1
    (by norm_num [searchW, List.pairwise_cons])

/-- The batching loop of `generate_embeddings` yields exactly one
embedding per input text when the encoder does so per batch. -/
lemma genEmbAux_length (encode : List Str → Except Unit (List Vec))
    (h : ∀ b es, encode b = Except.ok es → es.length = b.length) :
    ∀ fuel texts es, texts.length < fuel →
      genEmbAux encode fuel texts = .ok es → es.length = texts.length := by
  intro fuel
  induction fuel with
  | zero => intro texts es hlt; exact absurd hlt (Nat.not_lt_zero _)
  | succ f ih =>
    intro texts es hlt heq
    cases texts with
    | nil =>
      simp [genEmbAux] at heq
      simp [heq]
    | cons t ts =>
      simp only [genEmbAux] at heq
      cases he : encode ((t :: ts).take 32) with
      | error e => rw [he] at heq; exact absurd heq (by simp)
      | ok e1 =>
        rw [he] at heq
        cases hr : genEmbAux encode f ((t :: ts).drop 32) with
        | error e => rw [hr] at heq; exact absurd heq (by simp)
        | ok rest =>
          rw [hr] at heq
          have heq2 : e1 ++ rest = es := by
            simpa using heq
          have l1 := h _ _ he
          have l2 := ih ((t :: ts).drop 32) rest
            (by simp only [List.length_drop]; simp at hlt ⊢; omega) hr
          rw [← heq2, List.length_append, l1, l2, List.length_take,
            List.length_drop]
          simp
          omega

/-- `generate_embeddings` yields one embedding per text. -/
lemma generate_embeddings_length (encode : List Str → Except Unit (List Vec))
    (h : ∀ b es, encode b = Except.ok es → es.length = b.length)
    (texts : List Str) (es : List Vec)
    (heq : generate_embeddings encode texts = .ok es) :
    es.length = texts.length :=
  genEmbAux_length encode h (texts.length + 1) texts es (by omega) heq

/-- C1: `add_to_vector_database` is atomic.  When the embedding step
raises, the exception propagates with the index count, text store and
metadata store exactly as before the call (only the lazily created empty
index object may newly exist, at count 0).  When the call completes, the
index count grows by exactly the number of chunks, as do both stores, so
the count invariant `index.count = len(texts) = len(metadatas)` is
preserved. -/
theorem c1_add_atomic (encode : List Str → Except Unit (List Vec)) (d : Nat)
    (s : VDB) (chunks : List Chunk)
    (henc : ∀ b es, encode b = Except.ok es → es.length = b.length) :
    (∀ s', add_to_vector_database encode d s chunks = .exn s' →
      indexCount s' = indexCount s ∧ s'.texts = s.texts ∧
        s'.metadatas = s.metadatas) ∧
    (∀ s' u, add_to_vector_database encode d s chunks = .ok s' u →
      indexCount s' = indexCount s + chunks.length ∧
      s'.texts.length = s.texts.length + chunks.length ∧
      s'.metadatas.length = s.metadatas.length + chunks.length ∧
      (indexCount s = s.texts.length → s.texts.length = s.metadatas.length →
        indexCount s' = s'.texts.length ∧
          s'.texts.length = s'.metadatas.length)) := by
  have hcnt : (if s.index = none then create_vector_index d s else s).index.getD 0
      = indexCount s := by
    cases hix : s.index <;>
      simp [create_vector_index, initialize_embeddings, indexCount, hix]
  have htx : (if s.index = none then create_vector_index d s else s).texts
      = s.texts := by
    cases hix : s.index <;> cases hdim : s.dimension <;>
      simp [create_vector_index, initialize_embeddings, hix, hdim]
  have hmd : (if s.index = none then create_vector_index d s else s).metadatas
      = s.metadatas := by
    cases hix : s.index <;> cases hdim : s.dimension <;>
      simp [create_vector_index, initialize_embeddings, hix, hdim]
  constructor
  · intro s' heq
    cases hge : generate_embeddings encode (chunks.map Chunk.text) with
    | error e =>
      have : add_to_vector_database encode d s chunks =
          .exn (if s.index = none then create_vector_index d s else s) := by
        simp [add_to_vector_database, hge]
      rw [this] at heq
      cases heq
      exact ⟨by rw [← hcnt]; rfl, htx, hmd⟩
    | ok embs =>
      simp [add_to_vector_database, hge] at heq
  · intro s' u heq
    cases hge : generate_embeddings encode (chunks.map Chunk.text) with
    | error e =>
      have : add_to_vector_database encode d s chunks =
          .exn (if s.index = none then create_vector_index d s else s) := by
        simp [add_to_vector_database, hge]
      rw [this] at heq
      cases heq
    | ok embs =>
      have hlen : embs.length = chunks.length := by
        have := generate_embeddings_length encode henc _ _ hge
        simpa using this
      have : add_to_vector_database encode d s chunks = .ok
          { index := some
              ((if s.index = none then create_vector_index d s else s).index.getD 0
                + embs.length)
            texts := (if s.index = none then create_vector_index d s else s).texts
              ++ chunks.map Chunk.text
            metadatas :=
              (if s.index = none then create_vector_index d s else s).metadatas
                ++ chunks.map Chunk.metadata
            dimension :=
              (if s.index = none then create_vector_index d s else s).dimension }
          () := by
        simp [add_to_vector_database, hge]
      rw [this] at heq
      cases heq
      refine ⟨?_, ?_, ?_, ?_⟩
      · simp [indexCount, hcnt, hlen]
      · simp [htx, hlen]
      · simp [hmd, hlen]
      · intro h1 h2
        simp only [indexCount] at h1
        constructor <;>
          simp [indexCount, hcnt, htx, hmd, hlen, List.length_append, h1, h2]

/-- C1, witness: adding one chunk to the pristine state with a per-text
embedder succeeds and raises the index count from 0 to 1. -/
theorem c1_add_witness :
    indexCount ⟨some 1, [chunkW.text], [chunkW.metadata], some 384⟩ =
      indexCount vdb0 + 1 :=
  ((c1_add_atomic encodeOkW 384 vdb0 [chunkW]
      (by
        intro b es h
        injection h with h2
        rw [← h2, List.length_map])).2
    ⟨some 1, [chunkW.text], [chunkW.metadata], some 384⟩ () rfl).1

/-- Behaviour of the critic loop under an exception-free completion
service: it performs `m` consecutive calls at breadths `k, k+1, ...` for
some `1 ≤ m ≤ n`, returns the formatted response of the last call, and is
forced to use all `n` iterations when every candidate is rejected. -/
lemma criticLoop_genOk_spec (gen : Nat → Str) :
    ∀ n k fin calls, 1 ≤ n →
      ∃ m, 1 ≤ m ∧ m ≤ n ∧
        criticLoop (genOk gen) n k fin calls =
          .ok (format_medical_response (gen (k + m - 1)), calls ++ List.range' k m) ∧
        ((∀ j, k ≤ j → j < k + n →
            is_response_complete (format_medical_response (gen j)) = false) →
          m = n) := by
  intro n
  induction n with
  | zero => intro k fin calls h; exact absurd h (by omega)
  | succ n ih =>
    intro k fin calls _
    by_cases hacc : is_response_complete (format_medical_response (gen k)) = true
    · refine ⟨1, le_refl 1, by omega, ?_, ?_⟩
      · simp [criticLoop, genOk, hacc]
      · intro hall
        have := hall k (le_refl k) (by omega)
        rw [this] at hacc
        cases hacc
    · have hrej : is_response_complete (format_medical_response (gen k)) = false := by
        revert hacc
        cases is_response_complete (format_medical_response (gen k)) <;> simp
      cases n with
      | zero =>
        refine ⟨1, le_refl 1, le_refl 1, ?_, fun _ => rfl⟩
        simp [criticLoop, genOk, hrej]
      | succ n' =>
        obtain ⟨m, hm1, hmn, heq, hforce⟩ :=
          ih (k + 1) (format_medical_response (gen k)) (calls ++ [k]) (by omega)
        refine ⟨m + 1, by omega, by omega, ?_, ?_⟩
        · have hstep : criticLoop (genOk gen) (n' + 1 + 1) k fin calls =
            criticLoop (genOk gen) (n' + 1) (k + 1)
              (format_medical_response (gen k)) (calls ++ [k]) := by
            simp [criticLoop, genOk, hrej]
          rw [hstep, heq]
          have h1 : k + 1 + m - 1 = k + (m + 1) - 1 := by omega
          have h2 : calls ++ [k] ++ List.range' (k + 1) m =
              calls ++ List.range' k (m + 1) := by
            rw [List.range'_succ, List.append_assoc]
            rfl
          rw [h1, h2]
        · intro hall
          have hm := hforce (fun j hj1 hj2 => hall j (by omega) (by omega))
          omega

/-- C3: under an exception-free completion service the answer pipeline
issues `m ≤ 10` completion calls at breadths `3, 4, ..., m + 2` (starting
at 3 and increasing by exactly 1 after each rejection), returns the
formatted candidate of the last call, and when every candidate up to
breadth 12 is rejected it uses all 10 calls and still returns the last
(k = 12) candidate rather than failing. -/
theorem c3_critic_loop_bound (gen : Nat → Str) :
    ∃ m, 1 ≤ m ∧ m ≤ 10 ∧
      responseCalls (genOk gen) = List.range' 3 m ∧
      generate_medical_response (genOk gen) =
        format_medical_response (gen (m + 2)) ∧
      ((∀ k, 3 ≤ k → k ≤ 12 →
          is_response_complete (format_medical_response (gen k)) = false) →
        m = 10) := by
  obtain ⟨m, h1, h10, heq, hforce⟩ := criticLoop_genOk_spec gen 10 3 [] [] (by omega)
  refine ⟨m, h1, h10, ?_, ?_, ?_⟩
  · simp [responseCalls, heq]
  · have h3 : 3 + m - 1 = m + 2 := by omega
    simp [generate_medical_response, heq, h3]
  · intro hall
    exact hforce (fun j hj1 hj2 => hall j hj1 (by omega))

/-- C3, witness: with every candidate rejected (a 2-character response),
the loop issues exactly the 10 calls at breadths 3..12. -/
theorem c3_critic_witness : responseCalls (genOk genRejectW) = List.range' 3 10 := by
  obtain ⟨m, _, _, hcalls, _, hforce⟩ := c3_critic_loop_bound genRejectW
  have hc : is_response_complete (format_medical_response (str "hi")) = false := by
    decide
  have hm : m = 10 := hforce (fun k _ _ => hc)
  rw [hm] at hcalls
  exact hcalls

/-- When the completion service raises at the `i`-th reached iteration
(all earlier candidates having been rejected), the critic loop propagates
the exception. -/
lemma criticLoop_error (gen : Nat → Except Unit Str) :
    ∀ i n k fin calls, i < n →
      (∀ j, j < i → ∃ r, gen (k + j) = .ok r ∧
        is_response_complete (format_medical_response r) = false) →
      gen (k + i) = .error () →
      criticLoop gen n k fin calls = .error () := by
  intro i
  induction i with
  | zero =>
    intro n k fin calls hn _ herr
    cases n with
    | zero => exact absurd hn (by omega)
    | succ n' => simp [criticLoop, show gen k = .error () from herr]
  | succ i ih =>
    intro n k fin calls hn hok herr
    cases n with
    | zero => exact absurd hn (by omega)
    | succ n' =>
      obtain ⟨r, hr, hrej⟩ := hok 0 (by omega)
      rw [show k + 0 = k by omega] at hr
      have hstep : criticLoop gen (n' + 1) k fin calls =
          criticLoop gen n' (k + 1) (format_medical_response r) (calls ++ [k]) := by
        simp [criticLoop, hr, hrej]
      rw [hstep]
      exact ih n' (k + 1) (format_medical_response r) (calls ++ [k]) (by omega)
        (fun j hj => by
          obtain ⟨r', hr', hrej'⟩ := hok (j + 1) (by omega)
          exact ⟨r', by rw [show k + 1 + j = k + (j + 1) by omega]; exact hr', hrej'⟩)
        (by rw [show k + 1 + i = k + (i + 1) by omega]; exact herr)

/-- C8: if the completion service (or the retrieval inside it) raises at
any reached iteration of the critic loop — the first `i` candidates having
been produced and rejected — the pipeline aborts the loop and returns the
fixed apologetic fallback string; being a total function, it propagates no
exception to its caller. -/
theorem c8_exception_fallback (gen : Nat → Except Unit Str) (i : Nat)
    (hle : i ≤ 9)
    (hok : ∀ j, j < i → ∃ r, gen (3 + j) = .ok r ∧
      is_response_complete (format_medical_response r) = false)
    (herr : gen (3 + i) = .error ()) :
    generate_medical_response gen = apologyStr := by
  have hloop : criticLoop gen 10 3 [] [] = .error () :=
    criticLoop_error gen i 10 3 [] [] (by omega) hok herr
  simp [generate_medical_response, hloop]

/-- C8, witness: a service raising on the very first call (breadth 3)
makes the pipeline return the apology string. -/
theorem c8_exception_witness : generate_medical_response genErrW = apologyStr :=
  c8_exception_fallback genErrW 0 (by omega)
    (fun j hj => absurd hj (Nat.not_lt_zero j)) rfl

set_option maxRecDepth 100000 in
/-- C7, counterexample: the normalizer is not idempotent on every string.
On "a##b" the special-character filter (which runs after the whitespace
collapse) turns the two `#` into two adjacent spaces, and only a second
application collapses them: `f(f("a##b")) = "a b" ≠ "a  b" = f("a##b")`. -/
theorem c7_counterexample :
    preprocess_medical_text (preprocess_medical_text (str "a##b")) ≠
      preprocess_medical_text (str "a##b") := by
  decide

set_option maxRecDepth 400000 in
/-- C7 (amended): idempotence holds on representative inputs (the spec's
own scope): paragraph breaks, headers, abbreviations, double spaces,
punctuation spacing and the empty string; it fails in general only when
special-character removal manufactures new whitespace runs. -/
theorem c7_idempotent_on_representatives :
    ∀ x ∈ representativeInputs,
      preprocess_medical_text (preprocess_medical_text x) =
        preprocess_medical_text x := by
  decide

set_option maxRecDepth 100000 in
/-- C7, witness: idempotence at the paragraph-break representative. -/
theorem c7_idempotent_witness :
    preprocess_medical_text (preprocess_medical_text (str "a\n\nb")) =
      preprocess_medical_text (str "a\n\nb") :=
  c7_idempotent_on_representatives (str "a\n\nb") (by decide)

end MedBot
